import Mathlib

/-!
Shallow embedding of `lib/classes/many_to_many.py`: the `Article`, `Author`
and `Magazine` classes with their process-wide registries.

Modelling conventions:
* Python object identity is modelled by indices. Authors live in a heap
  `State.authors` (every constructed `Author` gets a fresh index), magazines in
  `State.magazines` (which is also the class attribute `Magazine.all_magazines`,
  since `Magazine.__init__` appends every instance), and articles in
  `State.articles` (the class attribute `Article.all_articles`, since
  `Article.__init__` appends every instance).
* Python's dynamic typing is modelled by `PyVal`; `isinstance(x, Author)`
  becomes "x is an `authorRef`", etc. Python `==` on these classes is default
  identity equality, which coincides with structural equality of `PyVal`
  (references carry the identity index).
* `raise ValueError(...)` becomes an `Except.error`. Each fallible operation
  returns the resulting state next to the `Except`; the code validates before
  mutating, so on error the returned state equals the input state.
* A Python method returning a list of objects is modelled as returning the
  list of their identities (registry indices).
* A Python `set` iterates in an unspecified order; `list(set)` is modelled as
  `List.dedup` (first-occurrence order). Theorems about these results only use
  membership and nodup-ness, which are order-independent.
-/

/-- A Python value, as far as the code under verification can distinguish them:
references to `Author` / `Magazine` objects (carrying the object identity),
strings, integers, and `None` (standing for any other non-string value). -/
inductive PyVal where
  | authorRef : Nat → PyVal
  | magazineRef : Nat → PyVal
  | str : String → PyVal
  | int : Int → PyVal
  | pynone : PyVal
deriving DecidableEq

/-- The fields of one `Article` object. `author` and `magazine` are plain
attributes, so after construction they can hold any value (they are only
validated in `__init__`). `title` is set from the validated string. -/
structure ArticleObj where
  author : PyVal
  magazine : PyVal
  title : String
deriving DecidableEq

/-- The fields of one `Magazine` object; both are kept as strings because the
property setters only ever store validated strings. -/
structure MagazineObj where
  name : String
  category : String
deriving DecidableEq

/-- The fields of one `Author` object. -/
structure AuthorObj where
  name : String
deriving DecidableEq

/-- The process-wide mutable state: the author heap, `Magazine.all_magazines`
and `Article.all_articles`. Object identity is the index into the list. -/
structure State where
  authors : List AuthorObj
  magazines : List MagazineObj
  articles : List ArticleObj
deriving DecidableEq

/-- Update one element of a list in place (Python attribute assignment on the
object stored at index `i`); out-of-range indices leave the list unchanged. -/
def listUpdate {α : Type} (l : List α) (i : Nat) (f : α → α) : List α :=
  match l[i]? with
  | some x => l.set i (f x)
  | none => l

/-- Placeholder article used to totalise index lookups; never reachable from
an in-range index. -/
def arbArticle : ArticleObj := ⟨PyVal.pynone, PyVal.pynone, ""⟩

/-- Python `Article.all_articles[i].author` (current attribute value). -/
def articleAuthor (s : State) (i : Nat) : PyVal :=
  ((s.articles[i]?).getD arbArticle).author

/-- Python `Article.all_articles[i].magazine` (current attribute value). -/
def articleMagazine (s : State) (i : Nat) : PyVal :=
  ((s.articles[i]?).getD arbArticle).magazine

/-- Did the operation succeed (no exception raised)? -/
def okB {α : Type} : Except String α → Bool
  | Except.ok _ => true
  | Except.error _ => false

namespace Article

/-- Python `Article.__init__(self, author, magazine, title)`: validates the three
arguments in order (`isinstance` checks, then the title length bound
`5 <= len(title) <= 50`), then sets the attributes and appends `self` to
`Article.all_articles`. Returns the identity of the new article. -/
def init (s : State) (author magazine title : PyVal) :
    Except String Nat × State :=
  match author with
  | PyVal.authorRef _ =>
    match magazine with
    | PyVal.magazineRef _ =>
      match title with
      | PyVal.str t =>
        if 5 ≤ t.length ∧ t.length ≤ 50 then
          (Except.ok s.articles.length,
            { s with articles := s.articles ++ [⟨author, magazine, t⟩] })
        else
          (Except.error "Title must be a string between 5 and 50 characters.", s)
      | _ =>
        (Except.error "Title must be a string between 5 and 50 characters.", s)
    | _ => (Except.error "Magazine must be an instance of the Magazine class.", s)
  | _ => (Except.error "Author must be an instance of the Author class.", s)

/-- Python `Article.get_all_articles()` — the whole registry. -/
def get_all_articles (s : State) : List ArticleObj :=
  s.articles

/-- Plain attribute assignment `article.author = v`: no validation. -/
def setAuthor (s : State) (i : Nat) (v : PyVal) : State :=
  { s with articles := listUpdate s.articles i (fun a => { a with author := v }) }

/-- Plain attribute assignment `article.magazine = v`: no validation. -/
def setMagazine (s : State) (i : Nat) (v : PyVal) : State :=
  { s with articles := listUpdate s.articles i (fun a => { a with magazine := v }) }

end Article

namespace Author

/-- Python `Author.__init__(self, name)`: validates that the name is a non-empty
string, then allocates a fresh author object. -/
def init (s : State) (name : PyVal) : Except String Nat × State :=
  match name with
  | PyVal.str t =>
    if t.length = 0 then (Except.error "Name must be a non-empty string.", s)
    else (Except.ok s.authors.length, { s with authors := s.authors ++ [⟨t⟩] })
  | _ => (Except.error "Name must be a non-empty string.", s)

/-- Python `Author.articles(self)`: the articles of the registry whose `author`
attribute equals (`==`, i.e. is identical to) this author, in registry order;
given as the list of their identities. -/
def articles (s : State) (a : Nat) : List Nat :=
  (List.range s.articles.length).filter
    (fun i => articleAuthor s i == PyVal.authorRef a)

/-- Python `Author.magazines(self)`: `list({article.magazine for article in
self.articles()})`. -/
def magazines (s : State) (a : Nat) : List PyVal :=
  ((articles s a).map (articleMagazine s)).dedup

/-- Python `Author.add_article(self, magazine, title)`: validates the `isinstance`
checks, then delegates to `Article(self, magazine, title)` (which re-validates
and also enforces the title length bound). -/
def add_article (s : State) (selfId : Nat) (magazine title : PyVal) :
    Except String Nat × State :=
  match magazine with
  | PyVal.magazineRef _ =>
    match title with
    | PyVal.str _ => Article.init s (PyVal.authorRef selfId) magazine title
    | _ => (Except.error "Title must be a string.", s)
  | _ => (Except.error "Magazine must be an instance of the Magazine class.", s)

/-- Python `magazine.category` for a `PyVal` that references a magazine; `none`
models the `AttributeError` a non-magazine value would raise. -/
def magCategory (s : State) (v : PyVal) : Option String :=
  match v with
  | PyVal.magazineRef m => (s.magazines[m]?).map MagazineObj.category
  | _ => none

/-- Python `Author.topic_areas(self)`: `None` when `self.magazines()` is empty,
otherwise `list({magazine.category for magazine in magazines})`. -/
def topic_areas (s : State) (a : Nat) : Option (List String) :=
  let mags := magazines s a
  if mags.isEmpty then none
  else some ((mags.filterMap (magCategory s)).dedup)

end Author

namespace Magazine

/-- The body of the `name` property setter: validate
`isinstance(value, str) and 2 <= len(value) <= 16`, then write `_name`. -/
def setName (s : State) (m : Nat) (v : PyVal) : Except String Unit × State :=
  match v with
  | PyVal.str t =>
    if 2 ≤ t.length ∧ t.length ≤ 16 then
      (Except.ok (),
        { s with magazines := listUpdate s.magazines m (fun mg => { mg with name := t }) })
    else (Except.error "Name must be a string between 2 and 16 characters.", s)
  | _ => (Except.error "Name must be a string between 2 and 16 characters.", s)

/-- The body of the `category` property setter: validate
`isinstance(value, str) and len(value) > 0`, then write `_category`. -/
def setCategory (s : State) (m : Nat) (v : PyVal) : Except String Unit × State :=
  match v with
  | PyVal.str t =>
    if t.length = 0 then
      (Except.error "Category must be a non-empty string.", s)
    else
      (Except.ok (),
        { s with magazines := listUpdate s.magazines m (fun mg => { mg with category := t }) })
  | _ => (Except.error "Category must be a non-empty string.", s)

/-- Python `Magazine.__init__(self, name, category)`: runs the two property setters
(name first, category second — each may raise), then appends `self` to
`Magazine.all_magazines`. A new object is only registered after both
validations pass. -/
def init (s : State) (name category : PyVal) : Except String Nat × State :=
  match name with
  | PyVal.str nm =>
    if 2 ≤ nm.length ∧ nm.length ≤ 16 then
      match category with
      | PyVal.str ct =>
        if ct.length = 0 then
          (Except.error "Category must be a non-empty string.", s)
        else
          (Except.ok s.magazines.length,
            { s with magazines := s.magazines ++ [⟨nm, ct⟩] })
      | _ => (Except.error "Category must be a non-empty string.", s)
    else (Except.error "Name must be a string between 2 and 16 characters.", s)
  | _ => (Except.error "Name must be a string between 2 and 16 characters.", s)

/-- Python `Magazine.articles(self)`: the articles of the registry whose `magazine`
attribute equals (is identical to) this magazine, in registry order; given as
the list of their identities. -/
def articles (s : State) (m : Nat) : List Nat :=
  (List.range s.articles.length).filter
    (fun i => articleMagazine s i == PyVal.magazineRef m)

/-- Python `len(self.articles())`. -/
def articlesCount (s : State) (m : Nat) : Nat :=
  (articles s m).length

/-- Python `Magazine.contributors(self)`: `list({article.author for article in
self.articles()})`. -/
def contributors (s : State) (m : Nat) : List PyVal :=
  ((articles s m).map (articleAuthor s)).dedup

/-- Python `sum(1 for article in author.articles() if article.magazine == self)` —
the number of articles a given author value has written for magazine `m`. -/
def authorMagCount (s : State) (a : PyVal) (m : Nat) : Nat :=
  ((s.articles.filter (fun art => art.author == a)).filter
    (fun art => art.magazine == PyVal.magazineRef m)).length

/-- Python `Magazine.contributing_authors(self)`: `None` when there are no
contributors; otherwise the contributors with strictly more than 2 articles
for this magazine, or `None` when that filtered list is empty. -/
def contributing_authors (s : State) (m : Nat) : Option (List PyVal) :=
  let authors := contributors s m
  if authors.isEmpty then none
  else
    let frequent := authors.filter (fun a => decide (2 < authorMagCount s a m))
    if frequent.isEmpty then none else some frequent

/-- Python `max(..., key=...)` over an association list, Python style: scan left to
right keeping the current best, replacing it only on a strictly greater
value — so ties keep the earliest entry. -/
def maxGo (bk : Nat) (bv : Nat) : List (Nat × Nat) → Nat
  | [] => bk
  | (k, v) :: rest => if bv < v then maxGo k v rest else maxGo bk bv rest

/-- Python `Magazine.top_publisher()`: `None` when `Article.get_all_articles()` is
empty; otherwise build `{magazine: len(magazine.articles()) for magazine in
cls.all_magazines}` (insertion order), return `None` when no count is truthy,
else `max(counts, key=counts.get)` — the first magazine with maximal count. -/
def top_publisher (s : State) : Option Nat :=
  if s.articles.isEmpty then none
  else if ((List.range s.magazines.length).map
      (fun m => (m, articlesCount s m))).all (fun p => p.2 == 0) then none
  else
    match (List.range s.magazines.length).map (fun m => (m, articlesCount s m)) with
    | [] => none
    | (k, v) :: rest => some (maxGo k v rest)

end Magazine

/-- Well-formedness of a state: every article's `author` and `magazine`
attributes reference existing objects (as is the case in every state produced
by validated construction). -/
def State.wf (s : State) : Bool :=
  s.articles.all (fun art =>
    (match art.author with
     | PyVal.authorRef a => a < s.authors.length
     | _ => false) &&
    (match art.magazine with
     | PyVal.magazineRef m => m < s.magazines.length
     | _ => false))

/-- Python `isinstance(v, Author)`. -/
def isAuthorInst : PyVal → Bool
  | PyVal.authorRef _ => true
  | _ => false

/-- Python `isinstance(v, Magazine)`. -/
def isMagazineInst : PyVal → Bool
  | PyVal.magazineRef _ => true
  | _ => false

/-- Python `isinstance(v, str) and 5 <= len(v) <= 50` — the article-title check. -/
def validTitleB : PyVal → Bool
  | PyVal.str t => decide (5 ≤ t.length) && decide (t.length ≤ 50)
  | _ => false

/-- Python `isinstance(v, str) and 2 <= len(v) <= 16` — the magazine-name check. -/
def validMagNameB : PyVal → Bool
  | PyVal.str t => decide (2 ≤ t.length) && decide (t.length ≤ 16)
  | _ => false

/-- Python `isinstance(v, str) and len(v) > 0` — the magazine-category check. -/
def validCategoryB : PyVal → Bool
  | PyVal.str t => decide (0 < t.length)
  | _ => false

/-- A small concrete state: one author, one magazine, no articles yet. -/
def sEx : State := ⟨[⟨"Alice"⟩], [⟨"Vogue", "Fashion"⟩], []⟩

/-- A concrete state with one author, two magazines and one article (by author
0 in magazine 0). -/
def sEx3 : State :=
  ⟨[⟨"Alice"⟩], [⟨"Vogue", "Fashion"⟩, ⟨"Tech Today", "Technology"⟩],
   [⟨PyVal.authorRef 0, PyVal.magazineRef 0, "Hello tutu"⟩]⟩

/-- A concrete state with two authors, two magazines and three articles:
two in magazine 0, one in magazine 1. -/
def sEx4 : State :=
  ⟨[⟨"Alice"⟩, ⟨"Bob"⟩],
   [⟨"Tech Today", "Technology"⟩, ⟨"Health Matters", "Health"⟩],
   [⟨PyVal.authorRef 0, PyVal.magazineRef 0, "Latest Tech Trends"⟩,
    ⟨PyVal.authorRef 1, PyVal.magazineRef 0, "AI in Healthcare"⟩,
    ⟨PyVal.authorRef 0, PyVal.magazineRef 1, "Dietary Tips for 2024"⟩]⟩

/-- A concrete state where Alice (author 0) wrote three articles for magazine
0 and Bob (author 1) wrote one. -/
def sEx5 : State :=
  ⟨[⟨"Alice"⟩, ⟨"Bob"⟩], [⟨"Vogue", "Fashion"⟩],
   [⟨PyVal.authorRef 0, PyVal.magazineRef 0, "Alpha piece"⟩,
    ⟨PyVal.authorRef 0, PyVal.magazineRef 0, "Beta piece!"⟩,
    ⟨PyVal.authorRef 0, PyVal.magazineRef 0, "Gamma piece"⟩,
    ⟨PyVal.authorRef 1, PyVal.magazineRef 0, "Delta piece"⟩]⟩

/-- Appending articles does not change the lookup of an existing index. -/
theorem getElem?_articles_append (s : State) (l2 : List ArticleObj) (i : Nat)
    (hi : i < s.articles.length) :
    (s.articles ++ l2)[i]? = s.articles[i]? := by
  rw [List.getElem?_append]
  simp [hi]

/-- C1. Creating an Article with `(author, magazine, title)` fails with
`ValidationError` unless `author` is an Author instance, `magazine` a Magazine
instance and `title` a string of length 5–50 inclusive; for every valid triple
the creation succeeds and the new Article appears in the registry returned by
`get_all_articles` exactly once, at the end, in call order (the registry is the
old registry with exactly the new article appended, and the new article's
identity is the fresh index). -/
theorem c1_article_create (s : State) (author magazine title : PyVal) :
    okB (Article.init s author magazine title).1 =
      (isAuthorInst author && isMagazineInst magazine && validTitleB title) ∧
    (∀ a m t, author = PyVal.authorRef a → magazine = PyVal.magazineRef m →
      title = PyVal.str t → 5 ≤ t.length → t.length ≤ 50 →
      Article.init s author magazine title =
        (Except.ok s.articles.length,
          { s with articles := s.articles ++ [⟨author, magazine, t⟩] }) ∧
      Article.get_all_articles (Article.init s author magazine title).2 =
        Article.get_all_articles s ++ [⟨author, magazine, t⟩]) := by
  constructor
  · cases author <;> cases magazine <;> cases title <;>
      simp only [Article.init, okB, isAuthorInst, isMagazineInst, validTitleB,
        Bool.false_and, Bool.and_false, Bool.true_and, Bool.and_true] <;>
      try rfl
    rename_i t
    by_cases h5 : 5 ≤ t.length <;> by_cases h50 : t.length ≤ 50 <;>
      simp [okB, h5, h50]
  · intro a m t ha hm ht h5 h50
    subst ha; subst hm; subst ht
    simp [Article.init, Article.get_all_articles, h5, h50]

/-- Witness for C1 at a concrete valid triple. -/
theorem c1_article_create_witness :
    Article.init sEx (PyVal.authorRef 0) (PyVal.magazineRef 0) (PyVal.str "Hello") =
      (Except.ok 0,
        ⟨[⟨"Alice"⟩], [⟨"Vogue", "Fashion"⟩],
         [⟨PyVal.authorRef 0, PyVal.magazineRef 0, "Hello"⟩]⟩) :=
  ((c1_article_create sEx (PyVal.authorRef 0) (PyVal.magazineRef 0)
      (PyVal.str "Hello")).2 0 0 "Hello" rfl rfl rfl (by decide) (by decide)).1

/-- C3 counterexample. The claim says `add_article` succeeds for every valid
Magazine and *every string* title, but with the valid magazine `0` and the
string title `"Test"` (length 4) the delegated `Article.__init__` raises, no
article is registered, and nothing is returned. -/
theorem c3_counterexample :
    okB (Author.add_article sEx 0 (PyVal.magazineRef 0) (PyVal.str "Test")).1 = false ∧
    (Author.add_article sEx 0 (PyVal.magazineRef 0) (PyVal.str "Test")).2 = sEx := by
  constructor
  · rfl
  · rfl

/-- C3 (amended). `Author.add_article(magazine, title)` fails with
`ValidationError` if `magazine` is not a Magazine instance, `title` is not a
string, or the title's length is outside 5–50 (the delegated `Article`
construction re-validates the title length); for every Magazine instance and
string title of length 5–50 it constructs, registers and returns a new Article
whose author is `self`. -/
theorem c3_add_article (s : State) (selfId : Nat) (magazine title : PyVal) :
    okB (Author.add_article s selfId magazine title).1 =
      (isMagazineInst magazine && validTitleB title) ∧
    (∀ m t, magazine = PyVal.magazineRef m → title = PyVal.str t →
      5 ≤ t.length → t.length ≤ 50 →
      Author.add_article s selfId magazine title =
        (Except.ok s.articles.length,
          { s with articles :=
              s.articles ++ [⟨PyVal.authorRef selfId, magazine, t⟩] })) := by
  constructor
  · cases magazine <;> cases title <;>
      simp only [Author.add_article, Article.init, okB, isMagazineInst, validTitleB,
        Bool.false_and, Bool.and_false, Bool.true_and, Bool.and_true] <;>
      try rfl
    rename_i t
    by_cases h5 : 5 ≤ t.length <;> by_cases h50 : t.length ≤ 50 <;>
      simp [okB, h5, h50]
  · intro m t hm ht h5 h50
    subst hm; subst ht
    simp [Author.add_article, Article.init, h5, h50]

/-- Witness for the amended C3 at a concrete valid input. -/
theorem c3_add_article_witness :
    Author.add_article sEx 0 (PyVal.magazineRef 0) (PyVal.str "Hello") =
      (Except.ok 0,
        ⟨[⟨"Alice"⟩], [⟨"Vogue", "Fashion"⟩],
         [⟨PyVal.authorRef 0, PyVal.magazineRef 0, "Hello"⟩]⟩) :=
  (c3_add_article sEx 0 (PyVal.magazineRef 0) (PyVal.str "Hello")).2
    0 "Hello" rfl rfl (by decide) (by decide)

/-- C6. Magazine `name` and `category` are validated on every assignment, not
only at construction: construction succeeds exactly when the name is a string
of length 2–16 and the category a non-empty string, a later `name` assignment
succeeds exactly when the new name is a string of length 2–16, and a later
`category` assignment succeeds exactly when the new category is a non-empty
string (so e.g. names of length 1 or 17 fail in both places). -/
theorem c6_magazine_validation (s : State) (m : Nat) (v c : PyVal) :
    okB (Magazine.init s v c).1 = (validMagNameB v && validCategoryB c) ∧
    okB (Magazine.setName s m v).1 = validMagNameB v ∧
    okB (Magazine.setCategory s m c).1 = validCategoryB c := by
  refine ⟨?_, ?_, ?_⟩
  · cases v <;> cases c <;>
      first
        | rfl
        | (rename_i nm ct
           by_cases h2 : 2 ≤ nm.length <;> by_cases h16 : nm.length ≤ 16 <;>
             by_cases h0 : ct.length = 0 <;>
             simp [Magazine.init, okB, validMagNameB, validCategoryB, h2, h16, h0,
               Nat.pos_iff_ne_zero])
        | (rename_i nm ct
           by_cases h2 : 2 ≤ nm.length <;> by_cases h16 : nm.length ≤ 16 <;>
             simp [Magazine.init, okB, validMagNameB, validCategoryB, h2, h16])
        | (rename_i nm
           by_cases h2 : 2 ≤ nm.length <;> by_cases h16 : nm.length ≤ 16 <;>
             simp [Magazine.init, okB, validMagNameB, validCategoryB, h2, h16])
  · cases v <;>
      first
        | rfl
        | (rename_i t
           by_cases h2 : 2 ≤ t.length <;> by_cases h16 : t.length ≤ 16 <;>
             simp [Magazine.setName, okB, validMagNameB, h2, h16])
  · cases c <;>
      first
        | rfl
        | (rename_i t
           by_cases h0 : t.length = 0 <;>
             simp [Magazine.setCategory, okB, validCategoryB, h0, Nat.pos_iff_ne_zero])

/-- C7. Validation failures are atomic: a failed Article or Magazine
construction, and a failed assignment to a Magazine's `name` or `category`,
leave the whole process state (all registries and all object fields) exactly
as it was. -/
theorem c7_atomic_failure (s : State) (author magazine title name category v : PyVal)
    (m : Nat) :
    (okB (Article.init s author magazine title).1 = false →
      (Article.init s author magazine title).2 = s) ∧
    (okB (Magazine.init s name category).1 = false →
      (Magazine.init s name category).2 = s) ∧
    (okB (Magazine.setName s m v).1 = false →
      (Magazine.setName s m v).2 = s) ∧
    (okB (Magazine.setCategory s m v).1 = false →
      (Magazine.setCategory s m v).2 = s) := by
  refine ⟨?_, ?_, ?_, ?_⟩
  · cases author <;> cases magazine <;> cases title <;>
      first
        | (intro _; rfl)
        | (simp only [Article.init]
           split <;> simp [okB])
  · cases name <;> cases category <;>
      first
        | (intro _; rfl)
        | (simp only [Magazine.init]
           split <;> (try split) <;> simp [okB])
  · cases v <;>
      first
        | (intro _; rfl)
        | (simp only [Magazine.setName]
           split <;> simp [okB])
  · cases v <;>
      first
        | (intro _; rfl)
        | (simp only [Magazine.setCategory]
           split <;> simp [okB])

/-- Witness for C7: four concrete failing operations, each leaving the state
untouched. -/
theorem c7_atomic_failure_witness :
    (Article.init sEx (PyVal.str "Al") (PyVal.magazineRef 0) (PyVal.str "Hello")).2 = sEx ∧
    (Magazine.init sEx (PyVal.str "V") (PyVal.str "Fashion")).2 = sEx ∧
    (Magazine.setName sEx 0 (PyVal.str "")).2 = sEx ∧
    (Magazine.setCategory sEx 0 (PyVal.str "")).2 = sEx := by
  obtain ⟨h1, h2, h3, h4⟩ := c7_atomic_failure sEx (PyVal.str "Al") (PyVal.magazineRef 0)
    (PyVal.str "Hello") (PyVal.str "V") (PyVal.str "Fashion") (PyVal.str "") 0
  exact ⟨h1 (by decide), h2 (by decide), h3 (by decide), h4 (by decide)⟩

/-- C5. `Author.articles()` returns exactly the subsequence of the global
registry whose `author` attribute is identical to this Author, in registry
order (the returned identities are strictly increasing), and it is unaffected
by registering articles belonging to other authors. -/
theorem c5_author_articles (s : State) (a : Nat) :
    (Author.articles s a).Pairwise (· < ·) ∧
    (∀ i, i ∈ Author.articles s a ↔
      i < s.articles.length ∧ articleAuthor s i = PyVal.authorRef a) ∧
    (∀ art : ArticleObj, art.author ≠ PyVal.authorRef a →
      Author.articles { s with articles := s.articles ++ [art] } a =
        Author.articles s a) := by
  refine ⟨?_, ?_, ?_⟩
  · exact (List.pairwise_lt_range _).sublist (List.filter_sublist _)
  · intro i
    simp [Author.articles, List.mem_filter, List.mem_range]
  · intro art hart
    have hlen : ({ s with articles := s.articles ++ [art] } : State).articles.length =
        s.articles.length + 1 := by simp
    simp only [Author.articles, hlen, List.range_succ, List.filter_append]
    have h1 : articleAuthor { s with articles := s.articles ++ [art] }
        s.articles.length = art.author := by
      simp [articleAuthor, List.getElem?_concat_length]
    have h2 : ∀ i ∈ List.range s.articles.length,
        (articleAuthor { s with articles := s.articles ++ [art] } i ==
          PyVal.authorRef a) =
        (articleAuthor s i == PyVal.authorRef a) := by
      intro i hi
      rw [List.mem_range] at hi
      simp only [articleAuthor]
      rw [getElem?_articles_append s [art] i hi]
    rw [List.filter_congr h2]
    simp [h1, hart]

/-- Witness for C5: membership law at a concrete index, and invariance of
Alice's article list under an article by another author. -/
theorem c5_author_articles_witness :
    (0 ∈ Author.articles sEx3 0 ↔
      0 < sEx3.articles.length ∧ articleAuthor sEx3 0 = PyVal.authorRef 0) ∧
    Author.articles
        { sEx3 with articles := sEx3.articles ++
            [⟨PyVal.authorRef 5, PyVal.magazineRef 0, "Other piece"⟩] } 0 =
      Author.articles sEx3 0 :=
  ⟨(c5_author_articles sEx3 0).2.1 0,
   (c5_author_articles sEx3 0).2.2
     ⟨PyVal.authorRef 5, PyVal.magazineRef 0, "Other piece"⟩ (by decide)⟩

/-- C8. `Author.topic_areas()` returns `None` exactly when the author has no
articles; otherwise it returns a duplicate-free list whose members are exactly
the categories of the magazines of the author's articles. -/
theorem c8_topic_areas (s : State) (a : Nat) (hwf : s.wf = true) :
    (Author.topic_areas s a = none ↔ Author.articles s a = []) ∧
    (∀ l, Author.topic_areas s a = some l →
      l.Nodup ∧
      ∀ cat, cat ∈ l ↔ ∃ i ∈ Author.articles s a,
        Author.magCategory s (articleMagazine s i) = some cat) := by
  have hmag : Author.magazines s a = [] ↔ Author.articles s a = [] := by
    simp [Author.magazines, List.dedup_eq_nil]
  constructor
  · constructor
    · intro hnone
      rw [Author.topic_areas] at hnone
      by_cases h : (Author.magazines s a).isEmpty
      · rw [List.isEmpty_iff] at h
        exact hmag.mp h
      · simp [h] at hnone
    · intro hnil
      have h : (Author.magazines s a).isEmpty := by
        rw [List.isEmpty_iff]
        exact hmag.mpr hnil
      simp [Author.topic_areas, h]
  · intro l hl
    rw [Author.topic_areas] at hl
    by_cases h : (Author.magazines s a).isEmpty
    · simp [h] at hl
    · simp only [h, Bool.false_eq_true, if_false, Option.some.injEq] at hl
      subst hl
      refine ⟨List.nodup_dedup _, ?_⟩
      intro cat
      simp only [List.mem_dedup, List.mem_filterMap, Author.magazines,
        List.mem_map]
      constructor
      · rintro ⟨v, hv, hf⟩
        obtain ⟨i, hi, rfl⟩ := hv
        exact ⟨i, hi, hf⟩
      · rintro ⟨i, hi, hf⟩
        exact ⟨articleMagazine s i, ⟨i, hi, rfl⟩, hf⟩

/-- Witness for C8 at a concrete state: Alice's single Fashion article yields
the category set, exhibited through the theorem's membership law. -/
theorem c8_topic_areas_witness :
    ∃ i ∈ Author.articles sEx3 0,
      Author.magCategory sEx3 (articleMagazine sEx3 i) = some "Fashion" :=
  (((c8_topic_areas sEx3 0 (by decide)).2 ["Fashion"] (by decide)).2
      "Fashion").mp (by decide)

/-- An author value is a contributor of magazine `m` exactly when some
registered article has it as author and `m` as magazine. -/
theorem mem_contributors_iff (s : State) (m : Nat) (a : PyVal) :
    a ∈ Magazine.contributors s m ↔
      ∃ i, i < s.articles.length ∧ articleMagazine s i = PyVal.magazineRef m ∧
        articleAuthor s i = a := by
  simp only [Magazine.contributors, List.mem_dedup, List.mem_map,
    Magazine.articles, List.mem_filter, List.mem_range, beq_iff_eq]
  constructor
  · rintro ⟨i, ⟨hi, hm⟩, ha⟩
    exact ⟨i, hi, hm, ha⟩
  · rintro ⟨i, hi, hm, ha⟩
    exact ⟨i, ⟨hi, hm⟩, ha⟩

/-- An author value with at least one article for magazine `m` is one of its
contributors. -/
theorem count_pos_mem (s : State) (m : Nat) (a : PyVal)
    (h : 0 < Magazine.authorMagCount s a m) : a ∈ Magazine.contributors s m := by
  rw [Magazine.authorMagCount, List.length_pos] at h
  obtain ⟨art, hart⟩ := List.exists_mem_of_ne_nil _ h
  rw [List.mem_filter] at hart
  obtain ⟨hart1, hmag⟩ := hart
  rw [List.mem_filter] at hart1
  obtain ⟨hmem, hauth⟩ := hart1
  rw [beq_iff_eq] at hmag hauth
  rw [List.mem_iff_getElem] at hmem
  obtain ⟨i, hlt, heq⟩ := hmem
  have hAi : (s.articles[i]?).getD arbArticle = art := by
    rw [List.getElem?_eq_getElem hlt, Option.getD_some, heq]
  rw [mem_contributors_iff]
  exact ⟨i, hlt, by rw [articleMagazine, hAi, hmag],
    by rw [articleAuthor, hAi, hauth]⟩

/-- C4. `Magazine.contributing_authors()` returns `None` exactly when no
author value has written more than 2 articles for this magazine (in particular
when there are no contributors at all); otherwise it returns a list containing
exactly the author values with strictly more than 2 articles for this
magazine. -/
theorem c4_contributing_authors (s : State) (m : Nat) (hwf : s.wf = true) :
    (Magazine.contributing_authors s m = none ↔
      ∀ a : PyVal, Magazine.authorMagCount s a m ≤ 2) ∧
    (∀ l, Magazine.contributing_authors s m = some l →
      ∀ a, a ∈ l ↔ 2 < Magazine.authorMagCount s a m) := by
  have key : ∀ a : PyVal, 2 < Magazine.authorMagCount s a m →
      a ∈ (Magazine.contributors s m).filter
        (fun a2 => decide (2 < Magazine.authorMagCount s a2 m)) := by
    intro a ha
    rw [List.mem_filter]
    exact ⟨count_pos_mem s m a (by omega), by simp [ha]⟩
  constructor
  · simp only [Magazine.contributing_authors]
    by_cases hC : (Magazine.contributors s m).isEmpty
    · simp only [hC, if_true]
      constructor
      · intro _ a
        by_contra hgt
        push_neg at hgt
        have hmem := (List.mem_filter.mp (key a hgt)).1
        rw [List.isEmpty_iff] at hC
        rw [hC] at hmem
        exact absurd hmem (List.not_mem_nil a)
      · intro _
        trivial
    · simp only [hC, Bool.false_eq_true, if_false]
      by_cases hF : ((Magazine.contributors s m).filter
          (fun a2 => decide (2 < Magazine.authorMagCount s a2 m))).isEmpty
      · simp only [hF, if_true]
        constructor
        · intro _ a
          by_contra hgt
          push_neg at hgt
          have hmem := key a hgt
          rw [List.isEmpty_iff] at hF
          rw [hF] at hmem
          exact absurd hmem (List.not_mem_nil a)
        · intro _
          trivial
      · simp only [hF, Bool.false_eq_true, if_false]
        constructor
        · intro hc
          exact absurd hc (by simp)
        · intro hall
          exfalso
          have hne : ((Magazine.contributors s m).filter
              (fun a2 => decide (2 < Magazine.authorMagCount s a2 m))) ≠ [] := by
            intro hnil
            rw [hnil] at hF
            exact hF rfl
          obtain ⟨a, ha⟩ := List.exists_mem_of_ne_nil _ hne
          rw [List.mem_filter] at ha
          have hgt : 2 < Magazine.authorMagCount s a m := by simpa using ha.2
          exact absurd (hall a) (by omega)
  · intro l hl
    simp only [Magazine.contributing_authors] at hl
    by_cases hC : (Magazine.contributors s m).isEmpty
    · simp [hC] at hl
    · by_cases hF : ((Magazine.contributors s m).filter
          (fun a2 => decide (2 < Magazine.authorMagCount s a2 m))).isEmpty
      · simp [hC, hF] at hl
      · simp only [hC, hF, Bool.false_eq_true, if_false, Option.some.injEq] at hl
        subst hl
        intro a
        rw [List.mem_filter]
        constructor
        · rintro ⟨_, hd⟩
          simpa using hd
        · intro hgt
          exact ⟨count_pos_mem s m a (by omega), by simp [hgt]⟩

/-- Witness for C4: in `sEx5`, Alice is returned and indeed has more than two
articles in the magazine. -/
theorem c4_contributing_authors_witness :
    PyVal.authorRef 0 ∈ [PyVal.authorRef 0] ↔
      2 < Magazine.authorMagCount sEx5 (PyVal.authorRef 0) 0 :=
  ((c4_contributing_authors sEx5 0 (by decide)).2 [PyVal.authorRef 0]
      (by decide)) (PyVal.authorRef 0)

theorem listUpdate_length {α : Type} (l : List α) (i : Nat) (f : α → α) :
    (listUpdate l i f).length = l.length := by
  rw [listUpdate]
  cases h : l[i]? <;> simp

theorem listUpdate_getElem?_self {α : Type} (l : List α) (i : Nat) (f : α → α)
    (hi : i < l.length) :
    (listUpdate l i f)[i]? = some (f l[i]) := by
  rw [listUpdate, List.getElem?_eq_getElem hi]
  simp [List.getElem?_set_self, hi]

theorem listUpdate_getElem?_other {α : Type} (l : List α) (i j : Nat) (f : α → α)
    (hij : i ≠ j) :
    (listUpdate l i f)[j]? = l[j]? := by
  rw [listUpdate]
  cases h : l[i]? <;> simp [List.getElem?_set_ne hij]

theorem setMagazine_articleMagazine_self (s : State) (i : Nat) (v : PyVal)
    (hi : i < s.articles.length) :
    articleMagazine (Article.setMagazine s i v) i = v := by
  simp [articleMagazine, Article.setMagazine, listUpdate_getElem?_self _ _ _ hi]

theorem setMagazine_articleMagazine_other (s : State) (i j : Nat) (v : PyVal)
    (hij : i ≠ j) :
    articleMagazine (Article.setMagazine s i v) j = articleMagazine s j := by
  simp [articleMagazine, Article.setMagazine, listUpdate_getElem?_other _ _ _ _ hij]

theorem setMagazine_articleAuthor (s : State) (i j : Nat) (v : PyVal) :
    articleAuthor (Article.setMagazine s i v) j = articleAuthor s j := by
  rcases eq_or_ne i j with rfl | hij
  · by_cases hi : i < s.articles.length
    · simp [articleAuthor, Article.setMagazine, listUpdate_getElem?_self _ _ _ hi,
        List.getElem?_eq_getElem hi]
    · have hout : s.articles[i]? = none := by
        rw [List.getElem?_eq_none_iff]
        omega
      simp [articleAuthor, Article.setMagazine, listUpdate, hout]
  · simp [articleAuthor, Article.setMagazine, listUpdate_getElem?_other _ _ _ _ hij]

theorem setAuthor_articleAuthor_self (s : State) (i : Nat) (v : PyVal)
    (hi : i < s.articles.length) :
    articleAuthor (Article.setAuthor s i v) i = v := by
  simp [articleAuthor, Article.setAuthor, listUpdate_getElem?_self _ _ _ hi]

theorem setAuthor_articleAuthor_other (s : State) (i j : Nat) (v : PyVal)
    (hij : i ≠ j) :
    articleAuthor (Article.setAuthor s i v) j = articleAuthor s j := by
  simp [articleAuthor, Article.setAuthor, listUpdate_getElem?_other _ _ _ _ hij]

theorem setMagazine_articles_length (s : State) (i : Nat) (v : PyVal) :
    (Article.setMagazine s i v).articles.length = s.articles.length := by
  simp [Article.setMagazine, listUpdate_length]

theorem setAuthor_articles_length (s : State) (i : Nat) (v : PyVal) :
    (Article.setAuthor s i v).articles.length = s.articles.length := by
  simp [Article.setAuthor, listUpdate_length]

/-- Reassigning an article's magazine leaves every author's article list
unchanged. -/
theorem setMagazine_author_articles (s : State) (i : Nat) (v : PyVal) (b : Nat) :
    Author.articles (Article.setMagazine s i v) b = Author.articles s b := by
  simp only [Author.articles, setMagazine_articles_length]
  apply List.filter_congr
  intro j _
  rw [setMagazine_articleAuthor]

/-- Flipping one list element from outside a filter to inside it grows the
filtered length by exactly one. -/
theorem filter_length_flip (p q : Nat → Bool) (i : Nat) :
    ∀ (l : List Nat), l.Nodup → i ∈ l → (∀ j, j ≠ i → p j = q j) →
      p i = false → q i = true →
      (l.filter q).length = (l.filter p).length + 1 := by
  intro l
  induction l with
  | nil =>
    intro _ h
    exact absurd h (List.not_mem_nil i)
  | cons x t ih =>
    intro hnd hmem hpq hp hq
    rcases List.mem_cons.mp hmem with rfl | hmem2
    · have hnotin : i ∉ t := (List.nodup_cons.mp hnd).1
      have hft : t.filter p = t.filter q := by
        apply List.filter_congr
        intro j hj
        exact hpq j (fun h => hnotin (h ▸ hj))
      simp [List.filter_cons, hp, hq, hft]
    · have hxi : x ≠ i := fun h => (List.nodup_cons.mp hnd).1 (h ▸ hmem2)
      have hx : p x = q x := hpq x hxi
      have ih2 := ih (List.nodup_cons.mp hnd).2 hmem2 hpq hp hq
      by_cases hpx : p x = true
      · have hqx : q x = true := by rw [← hx]; exact hpx
        simp [List.filter_cons, hpx, hqx, ih2]
      · have hpx2 : p x = false := by
          cases h : p x
          · rfl
          · exact absurd h hpx
        have hqx : q x = false := by rw [← hx]; exact hpx2
        simp [List.filter_cons, hpx2, hqx, ih2]

/-- C9. An article's `author` and `magazine` attributes are reassignable after
construction with no validation (any value is accepted and becomes the current
attribute value), and the derived queries are computed from the current
attribute values: after reassigning an article's magazine from `m1` to `m2`
the article is in `m2`'s article list and counts, and its author is among
`m2`'s contributors, while it no longer appears in `m1`'s; reassigning the
author moves the article between the authors' article lists likewise. -/
theorem c9_mutation (s : State) (i m1 m2 : Nat)
    (hi : i < s.articles.length)
    (hm : articleMagazine s i = PyVal.magazineRef m1)
    (hne : m1 ≠ m2) :
    (∀ v : PyVal,
      (Article.setMagazine s i v).articles.length = s.articles.length ∧
      articleMagazine (Article.setMagazine s i v) i = v ∧
      (∀ b, Author.articles (Article.setMagazine s i v) b = Author.articles s b)) ∧
    (i ∈ Magazine.articles s m1 ∧ i ∉ Magazine.articles s m2) ∧
    (i ∈ Magazine.articles (Article.setMagazine s i (PyVal.magazineRef m2)) m2 ∧
     i ∉ Magazine.articles (Article.setMagazine s i (PyVal.magazineRef m2)) m1) ∧
    Magazine.articlesCount (Article.setMagazine s i (PyVal.magazineRef m2)) m2 =
      Magazine.articlesCount s m2 + 1 ∧
    Magazine.articlesCount (Article.setMagazine s i (PyVal.magazineRef m2)) m1 + 1 =
      Magazine.articlesCount s m1 ∧
    articleAuthor s i ∈
      Magazine.contributors (Article.setMagazine s i (PyVal.magazineRef m2)) m2 ∧
    (∀ a1 a2 : Nat, articleAuthor s i = PyVal.authorRef a1 → a1 ≠ a2 →
      (∀ w : PyVal, articleAuthor (Article.setAuthor s i w) i = w) ∧
      i ∈ Author.articles (Article.setAuthor s i (PyVal.authorRef a2)) a2 ∧
      i ∉ Author.articles (Article.setAuthor s i (PyVal.authorRef a2)) a1) := by
  have hmagself := setMagazine_articleMagazine_self s i (PyVal.magazineRef m2) hi
  have hmagother := fun j hij =>
    setMagazine_articleMagazine_other s i j (PyVal.magazineRef m2) hij
  refine ⟨?_, ⟨?_, ?_⟩, ⟨?_, ?_⟩, ?_, ?_, ?_, ?_⟩
  · intro v
    exact ⟨setMagazine_articles_length s i v,
      setMagazine_articleMagazine_self s i v hi,
      fun b => setMagazine_author_articles s i v b⟩
  · rw [Magazine.articles, List.mem_filter, List.mem_range]
    exact ⟨hi, by simp [hm]⟩
  · rw [Magazine.articles, List.mem_filter, List.mem_range]
    rintro ⟨_, hbad⟩
    rw [hm] at hbad
    simp at hbad
    exact hne hbad
  · rw [Magazine.articles, List.mem_filter, List.mem_range,
      setMagazine_articles_length]
    exact ⟨hi, by simp [hmagself]⟩
  · rw [Magazine.articles, List.mem_filter, List.mem_range]
    rintro ⟨_, hbad⟩
    rw [hmagself] at hbad
    simp at hbad
    exact hne hbad.symm
  · rw [Magazine.articlesCount, Magazine.articles, setMagazine_articles_length,
      Magazine.articlesCount, Magazine.articles]
    refine filter_length_flip
      (fun j => articleMagazine s j == PyVal.magazineRef m2)
      (fun j => articleMagazine (Article.setMagazine s i (PyVal.magazineRef m2)) j ==
        PyVal.magazineRef m2) i
      (List.range s.articles.length) (List.nodup_range _)
      (List.mem_range.mpr hi) ?_ ?_ ?_
    · intro j hij
      simp only [hmagother j (fun h => hij h.symm)]
    · simp only [hm]
      simp [hne]
    · simp only [hmagself]
      simp
  · rw [Magazine.articlesCount, Magazine.articles, setMagazine_articles_length,
      Magazine.articlesCount, Magazine.articles]
    refine (filter_length_flip
      (fun j => articleMagazine (Article.setMagazine s i (PyVal.magazineRef m2)) j ==
        PyVal.magazineRef m1)
      (fun j => articleMagazine s j == PyVal.magazineRef m1) i
      (List.range s.articles.length) (List.nodup_range _)
      (List.mem_range.mpr hi) ?_ ?_ ?_).symm
    · intro j hij
      simp only [hmagother j (fun h => hij h.symm)]
    · simp only [hmagself]
      simp
      exact fun h => hne h.symm
    · simp only [hm]
      simp
  · rw [mem_contributors_iff]
    refine ⟨i, ?_, hmagself, setMagazine_articleAuthor s i i _⟩
    rw [setMagazine_articles_length]
    exact hi
  · intro a1 a2 ha1 hne12
    have hauthself := setAuthor_articleAuthor_self s i (PyVal.authorRef a2) hi
    refine ⟨fun w => setAuthor_articleAuthor_self s i w hi, ?_, ?_⟩
    · rw [Author.articles, List.mem_filter, List.mem_range,
        setAuthor_articles_length]
      exact ⟨hi, by simp [hauthself]⟩
    · rw [Author.articles, List.mem_filter, List.mem_range]
      rintro ⟨_, hbad⟩
      rw [hauthself] at hbad
      simp at hbad
      exact hne12 hbad.symm

/-- Witness for C9: moving `sEx3`'s only article from magazine 0 to magazine 1
shifts the counts, and reassigning its author removes it from Alice's list. -/
theorem c9_mutation_witness :
    Magazine.articlesCount (Article.setMagazine sEx3 0 (PyVal.magazineRef 1)) 1 =
      Magazine.articlesCount sEx3 1 + 1 ∧
    Magazine.articlesCount (Article.setMagazine sEx3 0 (PyVal.magazineRef 1)) 0 + 1 =
      Magazine.articlesCount sEx3 0 ∧
    0 ∉ Author.articles (Article.setAuthor sEx3 0 (PyVal.authorRef 1)) 0 :=
  have h := c9_mutation sEx3 0 0 1 (by decide) (by decide) (by decide)
  ⟨h.2.2.2.1, h.2.2.2.2.1, (h.2.2.2.2.2.2 0 1 (by decide) (by decide)).2.2⟩

/-- Python's `max(..., key=...)` scan over the association list
`(k, c k) for k in ks` starting from best `(bk, c bk)`: the result is the
first key attaining the maximal value (the best is replaced only on a
strictly greater value). -/
theorem maxGo_spec (c : Nat → Nat) :
    ∀ (ks : List Nat) (bk : Nat), ks.Pairwise (· < ·) → (∀ k ∈ ks, bk < k) →
    ∃ r, Magazine.maxGo bk (c bk) (ks.map (fun k => (k, c k))) = r ∧
      (r = bk ∨ r ∈ ks) ∧ c bk ≤ c r ∧ (∀ k ∈ ks, c k ≤ c r) ∧
      (∀ k, (k = bk ∨ k ∈ ks) → k < r → c k < c r) := by
  intro ks
  induction ks with
  | nil =>
    intro bk _ _
    refine ⟨bk, rfl, Or.inl rfl, le_refl _, ?_, ?_⟩
    · intro k hk
      exact absurd hk (List.not_mem_nil k)
    · intro k hk hlt
      rcases hk with rfl | hk
      · omega
      · exact absurd hk (List.not_mem_nil k)
  | cons k0 ks ih =>
    intro bk hpw hbk
    have hk0 := (List.pairwise_cons.mp hpw).1
    have hpw2 := (List.pairwise_cons.mp hpw).2
    have hbk0 : bk < k0 := hbk k0 (List.mem_cons_self _ _)
    rw [List.map_cons]
    by_cases hlt : c bk < c k0
    · obtain ⟨r, hr, hmem, hle0, hleall, hfirst⟩ := ih k0 hpw2 hk0
      refine ⟨r, ?_, ?_, ?_, ?_, ?_⟩
      · rw [Magazine.maxGo, if_pos hlt]
        exact hr
      · rcases hmem with rfl | hmem
        · exact Or.inr (List.mem_cons_self _ _)
        · exact Or.inr (List.mem_cons_of_mem _ hmem)
      · exact le_trans (le_of_lt hlt) hle0
      · intro k hk
        rcases List.mem_cons.mp hk with rfl | hk2
        · exact hle0
        · exact hleall k hk2
      · intro k hk hklt
        rcases hk with rfl | hk2
        · exact lt_of_lt_of_le hlt hle0
        · rcases List.mem_cons.mp hk2 with rfl | hk3
          · exact hfirst k (Or.inl rfl) hklt
          · exact hfirst k (Or.inr hk3) hklt
    · obtain ⟨r, hr, hmem, hle0, hleall, hfirst⟩ := ih bk hpw2
        (fun k hk => lt_trans hbk0 (hk0 k hk))
      have hck0 : c k0 ≤ c bk := Nat.le_of_not_lt hlt
      refine ⟨r, ?_, ?_, ?_, ?_, ?_⟩
      · rw [Magazine.maxGo, if_neg hlt]
        exact hr
      · rcases hmem with rfl | hmem
        · exact Or.inl rfl
        · exact Or.inr (List.mem_cons_of_mem _ hmem)
      · exact hle0
      · intro k hk
        rcases List.mem_cons.mp hk with rfl | hk2
        · exact le_trans hck0 hle0
        · exact hleall k hk2
      · intro k hk hklt
        rcases hk with rfl | hk2
        · exact hfirst k (Or.inl rfl) hklt
        · rcases List.mem_cons.mp hk2 with rfl | hk3
          · have hbkr : bk < r := lt_trans hbk0 hklt
            have hcbk : c bk < c r := hfirst bk (Or.inl rfl) hbkr
            exact lt_of_le_of_lt hck0 hcbk
          · exact hfirst k (Or.inr hk3) hklt

/-- Whenever `top_publisher` returns a magazine, that magazine is registered,
its article count is maximal over all registered magazines, and every
earlier-registered magazine has a strictly smaller count (first-encountered
tie-break over `all_magazines` in insertion order). -/
theorem top_publisher_some (s : State) (m : Nat)
    (h : Magazine.top_publisher s = some m) :
    m < s.magazines.length ∧
    (∀ k, k < s.magazines.length →
      Magazine.articlesCount s k ≤ Magazine.articlesCount s m) ∧
    (∀ k, k < m → Magazine.articlesCount s k < Magazine.articlesCount s m) := by
  unfold Magazine.top_publisher at h
  split at h
  · exact absurd h (by simp)
  · split at h
    · exact absurd h (by simp)
    · split at h
      · exact absurd h (by simp)
      · rename_i k v rest hcounts
        rw [Option.some_inj] at h
        have hN : s.magazines.length ≠ 0 := by
          intro h0
          rw [h0] at hcounts
          simp at hcounts
        obtain ⟨n, hn⟩ := Nat.exists_eq_succ_of_ne_zero hN
        rw [hn, List.range_succ_eq_map, List.map_cons] at hcounts
        rw [List.cons.injEq, Prod.mk.injEq] at hcounts
        obtain ⟨⟨hk, hv⟩, hrest⟩ := hcounts
        subst hk
        subst hv
        subst hrest
        obtain ⟨r, hr, hmem, hle0, hleall, hfirst⟩ :=
          maxGo_spec (Magazine.articlesCount s) ((List.range n).map Nat.succ) 0
            (by
              rw [List.pairwise_map]
              exact (List.pairwise_lt_range n).imp (fun hab => Nat.succ_lt_succ hab))
            (by
              intro k hk
              rw [List.mem_map] at hk
              obtain ⟨j, _, rfl⟩ := hk
              exact Nat.succ_pos j)
        have hm : m = r := by rw [← h, hr]
        subst hm
        have hrange : ∀ k, k < s.magazines.length → (k = 0 ∨ k ∈ (List.range n).map Nat.succ) := by
          intro k hk
          rw [hn] at hk
          cases k with
          | zero => exact Or.inl rfl
          | succ j =>
            refine Or.inr (List.mem_map.mpr ⟨j, List.mem_range.mpr ?_, rfl⟩)
            omega
        have hmlt : m < s.magazines.length := by
          rcases hmem with rfl | hmem2
          · omega
          · rw [List.mem_map] at hmem2
            obtain ⟨j, hj, rfl⟩ := hmem2
            rw [List.mem_range] at hj
            omega
        refine ⟨hmlt, ?_, ?_⟩
        · intro k hk
          rcases hrange k hk with rfl | hk2
          · exact hle0
          · exact hleall k hk2
        · intro k hk
          exact hfirst k (hrange k (by omega)) hk

/-- With a nonempty registry and some magazine with a nonzero count,
`top_publisher` returns a magazine. -/
theorem top_publisher_isSome (s : State)
    (hne : s.articles ≠ [])
    (hnz : ∃ k, k < s.magazines.length ∧ Magazine.articlesCount s k ≠ 0) :
    ∃ m, Magazine.top_publisher s = some m := by
  obtain ⟨k0, hk0, hc0⟩ := hnz
  have hE : s.articles.isEmpty = false :=
    Bool.eq_false_iff.mpr (fun h => hne (List.isEmpty_iff.mp h))
  have hall : ((List.range s.magazines.length).map
      (fun m => (m, Magazine.articlesCount s m))).all (fun p => p.2 == 0) = false := by
    apply Bool.eq_false_iff.mpr
    intro htrue
    rw [List.all_eq_true] at htrue
    have hmem := htrue (k0, Magazine.articlesCount s k0)
      (List.mem_map.mpr ⟨k0, List.mem_range.mpr hk0, rfl⟩)
    simp at hmem
    exact hc0 hmem
  have hN : s.magazines.length ≠ 0 := by omega
  obtain ⟨n, hn⟩ := Nat.exists_eq_succ_of_ne_zero hN
  unfold Magazine.top_publisher
  rw [if_neg (by simp [hE]), if_neg (by simp [hall])]
  rw [hn, List.range_succ_eq_map, List.map_cons]
  exact ⟨_, rfl⟩

/-- C2. `Magazine.top_publisher()` returns `None` when the global article
registry is empty and also when every registered magazine's article count is
zero; otherwise it returns a magazine whose article count is maximal among all
registered magazines, with ties broken by first-encountered order during the
scan (every earlier-scanned magazine has a strictly smaller count). -/
theorem c2_top_publisher (s : State) :
    (s.articles = [] → Magazine.top_publisher s = none) ∧
    ((∀ m, m < s.magazines.length → Magazine.articlesCount s m = 0) →
      Magazine.top_publisher s = none) ∧
    (s.articles ≠ [] →
      (∃ m, m < s.magazines.length ∧ Magazine.articlesCount s m ≠ 0) →
      ∃ m, Magazine.top_publisher s = some m ∧ m < s.magazines.length ∧
        (∀ k, k < s.magazines.length →
          Magazine.articlesCount s k ≤ Magazine.articlesCount s m) ∧
        (∀ k, k < m → Magazine.articlesCount s k < Magazine.articlesCount s m)) := by
  refine ⟨?_, ?_, ?_⟩
  · intro h
    unfold Magazine.top_publisher
    rw [if_pos (by simp [h])]
  · intro h
    have hall : ((List.range s.magazines.length).map
        (fun m => (m, Magazine.articlesCount s m))).all (fun p => p.2 == 0) = true := by
      rw [List.all_eq_true]
      intro p hp
      rw [List.mem_map] at hp
      obtain ⟨m2, hm2, rfl⟩ := hp
      rw [List.mem_range] at hm2
      simp [h m2 hm2]
    unfold Magazine.top_publisher
    by_cases hE : s.articles.isEmpty
    · rw [if_pos hE]
    · rw [if_neg hE, if_pos hall]
  · intro hne hnz
    obtain ⟨m, hm⟩ := top_publisher_isSome s hne hnz
    obtain ⟨h1, h2, h3⟩ := top_publisher_some s m hm
    exact ⟨m, hm, h1, h2, h3⟩

/-- Witness for C2: the empty registry gives `None`; in `sEx4` (counts 2 and
1) the first magazine is returned. -/
theorem c2_top_publisher_witness :
    Magazine.top_publisher sEx = none ∧ Magazine.top_publisher sEx4 = some 0 := by
  constructor
  · exact (c2_top_publisher sEx).1 rfl
  · obtain ⟨m, hret, hlt, hmax, hfirst⟩ :=
      (c2_top_publisher sEx4).2.2 (by decide) ⟨0, by decide, by decide⟩
    have hm2 : m < 2 := by simpa [sEx4] using hlt
    interval_cases m
    · exact hret
    · exact absurd (hfirst 0 (by omega)) (by decide)

/-- C10. Every successful Magazine construction appends the new instance to
the process-wide registry `Magazine.all_magazines`; no operation of the module
removes a magazine from it (article/author construction and article attribute
assignment leave it untouched, and the magazine field setters preserve its
length, mutating one entry in place); and `top_publisher` scans this registry
in insertion order, so a returned magazine has maximal count over the whole
registry — zero-count magazines included in the scan — and every
earlier-constructed magazine has a strictly smaller count (so among tied
maximal ones the earliest-constructed is returned). -/
theorem c10_magazine_registry (s : State) :
    (∀ name category r s2, Magazine.init s name category = (Except.ok r, s2) →
      r = s.magazines.length ∧ ∃ mg, s2.magazines = s.magazines ++ [mg]) ∧
    (∀ name category,
      s.magazines.length ≤ (Magazine.init s name category).2.magazines.length) ∧
    (∀ author magazine title,
      (Article.init s author magazine title).2.magazines = s.magazines) ∧
    (∀ name, (Author.init s name).2.magazines = s.magazines) ∧
    (∀ i v, (Article.setAuthor s i v).magazines = s.magazines) ∧
    (∀ i v, (Article.setMagazine s i v).magazines = s.magazines) ∧
    (∀ m v, (Magazine.setName s m v).2.magazines.length = s.magazines.length) ∧
    (∀ m v, (Magazine.setCategory s m v).2.magazines.length = s.magazines.length) ∧
    (∀ m, Magazine.top_publisher s = some m → m < s.magazines.length ∧
      (∀ k, k < s.magazines.length →
        Magazine.articlesCount s k ≤ Magazine.articlesCount s m) ∧
      (∀ k, k < m → Magazine.articlesCount s k < Magazine.articlesCount s m)) := by
  refine ⟨?_, ?_, ?_, ?_, ?_, ?_, ?_, ?_, ?_⟩
  · intro name category r s2 hinit
    cases name <;> cases category <;> simp only [Magazine.init] at hinit <;>
      (try split_ifs at hinit) <;> simp at hinit <;>
      (obtain ⟨hr, hs⟩ := hinit
       subst hs
       exact ⟨hr.symm, _, rfl⟩)
  · intro name category
    cases name <;> cases category <;>
      simp only [Magazine.init] <;>
      first
        | simp
        | (split_ifs <;> simp)
  · intro author magazine title
    cases author <;> cases magazine <;> cases title <;>
      simp only [Article.init] <;>
      first
        | rfl
        | (split_ifs <;> rfl)
  · intro name
    cases name <;>
      simp only [Author.init] <;>
      first
        | rfl
        | (split_ifs <;> rfl)
  · intro i v
    rfl
  · intro i v
    rfl
  · intro m v
    cases v <;>
      simp only [Magazine.setName] <;>
      first
        | rfl
        | (split_ifs <;> simp [listUpdate_length])
  · intro m v
    cases v <;>
      simp only [Magazine.setCategory] <;>
      first
        | rfl
        | (split_ifs <;> simp [listUpdate_length])
  · intro m
    exact top_publisher_some s m

/-- Witness for C10: a successful construction appends to the registry, and
`top_publisher` on `sEx4` returns the earliest magazine with maximal count. -/
theorem c10_magazine_registry_witness :
    (1 = sEx.magazines.length ∧
      ∃ mg, (Magazine.init sEx (PyVal.str "AD") (PyVal.str "Design")).2.magazines =
        sEx.magazines ++ [mg]) ∧
    (0 < sEx4.magazines.length ∧
      (∀ k, k < sEx4.magazines.length →
        Magazine.articlesCount sEx4 k ≤ Magazine.articlesCount sEx4 0) ∧
      (∀ k, k < 0 → Magazine.articlesCount sEx4 k < Magazine.articlesCount sEx4 0)) :=
  ⟨(c10_magazine_registry sEx).1 (PyVal.str "AD") (PyVal.str "Design") 1
      (Magazine.init sEx (PyVal.str "AD") (PyVal.str "Design")).2 rfl,
   (c10_magazine_registry sEx4).2.2.2.2.2.2.2.2 0 (by decide)⟩
